import Mathlib

/-!
Verification of the eccentricity/mean-anomaly estimator in
`src/src/eccDefinition.py` (gw_eccentricity).

Shallow embedding conventions:
* numpy float arrays are `List ℚ` and arithmetic is exact rational
  arithmetic;
* fallible Python code returns `Except PyError _`, with one constructor
  per kind of exception the source can raise;
* `scipy.interpolate.InterpolatedUnivariateSpline` is an external
  collaborator; it is modelled by the `Spline` structure below, which
  records the data points and parameters passed to the constructor and
  whose evaluation realises the documented `ext` extrapolation-mode
  dispatch (see the doc comment on `Spline.eval`);
* the abstract method `eccDefinition.find_extrema` ("Please override
  me") is the designated strategy extension point, so the functions
  that call it take the concrete strategy as an explicit argument
  `fe : Which → List ℕ` (the detection keyword arguments are part of
  the strategy closure).
-/

namespace GwEcc

/-- Exceptions that the embedded Python code can raise.  `typeError`
covers `TypeError` (e.g. unpacking or subscripting `None`),
`valueError` covers numpy/scipy `ValueError`s, `indexError` covers
out-of-bounds indexing, `linAlgError` covers
`numpy.linalg.LinAlgError`, and `exceptionMsg` covers a bare
`raise Exception(msg)`. -/
inductive PyError where
  | typeError (msg : String)
  | valueError (msg : String)
  | indexError
  | linAlgError
  | exceptionMsg (msg : String)
  deriving DecidableEq, Repr

/-- Helper for `npArgmax`: scans the tail, keeping the index of the
first occurrence of the running maximum (`np.argmax` returns the first
maximal index, so the candidate is replaced only on a strict increase). -/
def argmaxGo : List ℚ → ℚ → ℕ → ℕ → ℕ
  | [], _, best, _ => best
  | y :: ys, cur, best, i =>
    if cur < y then argmaxGo ys y i (i + 1) else argmaxGo ys cur best (i + 1)

/-- Embeds `np.argmax` on a rational array: index of the first maximal
element, `none` on the empty array (where numpy raises `ValueError`). -/
def npArgmax : List ℚ → Option ℕ
  | [] => none
  | x :: rest => some (argmaxGo rest x 0 1)

/-- Embeds the 5-point quadratic fit at the heart of
`get_peak_via_quadratic_fit` (src/src/eccDefinition.py lines 165-176):
given the window centre time `ti`, the five shifted times
`testTimes = t[index-2:index+3] - t[index]` and the five function values
`testFuncs = func[index-2:index+3]`, it forms the Gram matrix of the
basis `(1, dt, dt^2)`, inverts it (`np.linalg.inv` raises
`LinAlgError` on a singular matrix; the inverse itself is modelled by
the exact adjugate formula), computes the least-squares coefficients
`coefs`, and returns the parabola vertex
`(t[index] - c1/(2 c2), c0 - c1^2/4/c2)`.
If either window has a length other than 5, building
`np.array([np.ones(5), testTimes, testTimes**2])` or the subsequent dot
products raise `ValueError` (inhomogeneous/ragged shapes), which the
fallback arm of `quadFit5` reports.  The fit is split into named
pieces: `gramDet` is the determinant of the 3x3 Gram matrix
`[[v1.dot(v2) for v1 in xVecs] for v2 in xVecs]` of the basis
`xVecs = (ones(5), dt, dt^2)`, and `fitC0`/`fitC1`/`fitC2` are the
entries of `coefs = invMat . yVec` written with the exact adjugate
inverse. -/
def gramDet (x1 x2 x3 x4 x5 : ℚ) : ℚ :=
  let s1 := x1 + x2 + x3 + x4 + x5
  let s2 := x1^2 + x2^2 + x3^2 + x4^2 + x5^2
  let s3 := x1^3 + x2^3 + x3^3 + x4^3 + x5^3
  let s4 := x1^4 + x2^4 + x3^4 + x4^4 + x5^4
  5*(s2*s4 - s3^2) - s1*(s1*s4 - s3*s2) + s2*(s1*s3 - s2^2)

/-- Coefficient `coefs[0]` of the least-squares fit: row 0 of the
adjugate of the Gram matrix applied to `yVec`, divided by the
determinant (the exact value of `np.linalg.inv` followed by the two
dot products of the source). -/
def fitC0 (x1 x2 x3 x4 x5 y1 y2 y3 y4 y5 : ℚ) : ℚ :=
  let s1 := x1 + x2 + x3 + x4 + x5
  let s2 := x1^2 + x2^2 + x3^2 + x4^2 + x5^2
  let s3 := x1^3 + x2^3 + x3^3 + x4^3 + x5^3
  let s4 := x1^4 + x2^4 + x3^4 + x4^4 + x5^4
  let sy0 := y1 + y2 + y3 + y4 + y5
  let sy1 := y1*x1 + y2*x2 + y3*x3 + y4*x4 + y5*x5
  let sy2 := y1*x1^2 + y2*x2^2 + y3*x3^2 + y4*x4^2 + y5*x5^2
  ((s2*s4 - s3^2)*sy0 + (s2*s3 - s1*s4)*sy1 + (s1*s3 - s2^2)*sy2)
    / gramDet x1 x2 x3 x4 x5

/-- Coefficient `coefs[1]` of the least-squares fit (see `fitC0`). -/
def fitC1 (x1 x2 x3 x4 x5 y1 y2 y3 y4 y5 : ℚ) : ℚ :=
  let s1 := x1 + x2 + x3 + x4 + x5
  let s2 := x1^2 + x2^2 + x3^2 + x4^2 + x5^2
  let s3 := x1^3 + x2^3 + x3^3 + x4^3 + x5^3
  let s4 := x1^4 + x2^4 + x3^4 + x4^4 + x5^4
  let sy0 := y1 + y2 + y3 + y4 + y5
  let sy1 := y1*x1 + y2*x2 + y3*x3 + y4*x4 + y5*x5
  let sy2 := y1*x1^2 + y2*x2^2 + y3*x3^2 + y4*x4^2 + y5*x5^2
  ((s2*s3 - s1*s4)*sy0 + (5*s4 - s2^2)*sy1 + (s1*s2 - 5*s3)*sy2)
    / gramDet x1 x2 x3 x4 x5

/-- Coefficient `coefs[2]` of the least-squares fit (see `fitC0`). -/
def fitC2 (x1 x2 x3 x4 x5 y1 y2 y3 y4 y5 : ℚ) : ℚ :=
  let s1 := x1 + x2 + x3 + x4 + x5
  let s2 := x1^2 + x2^2 + x3^2 + x4^2 + x5^2
  let s3 := x1^3 + x2^3 + x3^3 + x4^3 + x5^3
  let s4 := x1^4 + x2^4 + x3^4 + x4^4 + x5^4
  let sy0 := y1 + y2 + y3 + y4 + y5
  let sy1 := y1*x1 + y2*x2 + y3*x3 + y4*x4 + y5*x5
  let sy2 := y1*x1^2 + y2*x2^2 + y3*x3^2 + y4*x4^2 + y5*x5^2
  ((s1*s3 - s2^2)*sy0 + (s1*s2 - 5*s3)*sy1 + (5*s2 - s1^2)*sy2)
    / gramDet x1 x2 x3 x4 x5

def quadFit5 (ti : ℚ) : List ℚ → List ℚ → Except PyError (ℚ × ℚ)
  | [x1, x2, x3, x4, x5], [y1, y2, y3, y4, y5] =>
    if gramDet x1 x2 x3 x4 x5 = 0 then .error .linAlgError
    else
      let c0 := fitC0 x1 x2 x3 x4 x5 y1 y2 y3 y4 y5
      let c1 := fitC1 x1 x2 x3 x4 x5 y1 y2 y3 y4 y5
      let c2 := fitC2 x1 x2 x3 x4 x5 y1 y2 y3 y4 y5
      .ok (ti - c1/(2*c2), c0 - c1^2/4/c2)
  | _, _ => .error (.valueError "setting an array element with a sequence")

/-- Embeds `get_peak_via_quadratic_fit(t, func)`
(src/src/eccDefinition.py lines 150-176).  `index = np.argmax(func)`
(raising `ValueError` on an empty array), clamped as
`max(2, min(len(t) - 3, index))`; Python's `len(t) - 3` can be
negative there, but `min` followed by `max 2` yields 2 in exactly the
cases where truncated `ℕ` subtraction does, so the `ℕ` clamp agrees
with the Python one.  `t[index]` raises `IndexError` when
`index >= len(t)` (this happens for `len(t) <= 2`); the two slices
`t[index-2:index+3]` (shifted by `t[index]`) and
`func[index-2:index+3]` are then fed to the 5-point fit. -/
def get_peak_via_quadratic_fit (t func : List ℚ) : Except PyError (ℚ × ℚ) :=
  match npArgmax func with
  | none => .error (.valueError "attempt to get argmax of an empty sequence")
  | some i0 =>
    let index := max 2 (min (t.length - 3) i0)
    if hi : index < t.length then
      let ti := t.get ⟨index, hi⟩
      quadFit5 ti (((t.drop (index - 2)).take 5).map (fun x => x - ti))
        ((func.drop (index - 2)).take 5)
    else .error .indexError

/-- One entry of `np.gradient(f, x)` (second-order interior stencil for
non-uniform spacing, first-order one-sided differences at the two
edges; numpy's default `edge_order=1`).  Division by a zero spacing
yields `inf`/`nan` (a warning, not an exception) in numpy; in `ℚ` it
yields 0 — no claim below touches that case. -/
def gradAt (f x : List ℚ) (n i : ℕ) : ℚ :=
  if i = 0 then
    (f.getD 1 0 - f.getD 0 0) / (x.getD 1 0 - x.getD 0 0)
  else if i = n - 1 then
    (f.getD (n-1) 0 - f.getD (n-2) 0) / (x.getD (n-1) 0 - x.getD (n-2) 0)
  else
    let hd := x.getD i 0 - x.getD (i-1) 0
    let hs := x.getD (i+1) 0 - x.getD i 0
    (hs^2 * f.getD (i+1) 0 + (hd^2 - hs^2) * f.getD i 0 - hd^2 * f.getD (i-1) 0)
      / (hs * hd * (hd + hs))

/-- Embeds `np.gradient(f, x)` on equal-length arrays.  numpy raises
`ValueError` when the coordinate array's length differs from the
data's or when fewer than 2 samples are given (edge_order 1 needs
them). -/
def npGradient (f x : List ℚ) : Except PyError (List ℚ) :=
  if f.length ≠ x.length then
    .error (.valueError "invalid number of arguments")
  else if f.length < 2 then
    .error (.valueError "Shape of array too small to calculate a numerical gradient")
  else
    .ok ((List.range f.length).map (gradAt f x f.length))

/-- Derived numerical state computed once by `eccDefinition.__init__`
(src/src/eccDefinition.py lines 17-32): re-centred time, amplitude
`|h22|`, negated unwrapped phase, and instantaneous frequency
`omega22 = np.gradient(phase22, time)`. -/
structure Frame where
  time : List ℚ
  amp22 : List ℚ
  phase22 : List ℚ
  omega22 : List ℚ
  deriving DecidableEq, Repr

/-- Embeds `eccDefinition.__init__` (src/src/eccDefinition.py lines
17-32).  The constructor derives `amp22 = np.abs(h22)` and
`phase22 = -np.unwrap(np.angle(h22))` from the complex strain; complex
modulus and argument are transcendental, so the embedding takes the
derived `amp22` and `phase22` arrays as inputs (`np.abs`, `np.angle`
and `np.unwrap` are total and never raise, so the constructor's
control flow and failure behaviour are unchanged; for real
non-negative strain samples — used in the concrete instances below —
`amp22` is exactly the real part and `phase22` is exactly zero).
Steps, in source order: `t_peak = get_peak_via_quadratic_fit(time,
amp22)[0]` (whose exceptions propagate), `time = time - t_peak`,
`omega22 = np.gradient(phase22, time)`. -/
def eccDefinitionInit (t amp22 phase22 : List ℚ) : Except PyError Frame := do
  let pk ← get_peak_via_quadratic_fit t amp22
  let time := t.map (fun x => x - pk.1)
  let omega22 ← npGradient phase22 time
  return { time := time, amp22 := amp22, phase22 := phase22, omega22 := omega22 }

/-- The effective spline parameters after `measure_ecc` merges its
caller-supplied kwargs into `default_kwargs`
(src/src/eccDefinition.py lines 95-102): weights `w`, boundary box
`bbox`, degree `k`, extrapolation mode `ext`, and `check_finite`. -/
structure SplineOpts where
  w : Option (List ℚ)
  bbox : Option ℚ × Option ℚ
  k : ℕ
  ext : ℕ
  check_finite : Bool
  deriving DecidableEq, Repr

/-- Caller-supplied keyword arguments of `measure_ecc` destined for
`InterpolatedUnivariateSpline`: each field is `some v` when the key is
present in `**kwargs` and `none` when absent. -/
structure Kwargs where
  w? : Option (Option (List ℚ)) := none
  bbox? : Option (Option ℚ × Option ℚ) := none
  k? : Option ℕ := none
  ext? : Option ℕ := none
  check_finite? : Option Bool := none
  deriving DecidableEq, Repr

/-- Embeds the kwargs merge of `measure_ecc`
(src/src/eccDefinition.py lines 95-102): `default_kwargs = {"w": None,
"bbox": [None, None], "k": 3, "ext": 0, "check_finite": False}`, each
key overridden when present in the caller's `kwargs`. -/
def mergeKwargs (kw : Kwargs) : SplineOpts where
  w := kw.w?.getD none
  bbox := kw.bbox?.getD (none, none)
  k := kw.k?.getD 3
  ext := kw.ext?.getD 0
  check_finite := kw.check_finite?.getD false

/-- Model of a constructed `scipy.interpolate.InterpolatedUnivariateSpline`:
it owns the data points `(xs, ys)` it was built through and the
constructor options. -/
structure Spline where
  xs : List ℚ
  ys : List ℚ
  opts : SplineOpts
  deriving DecidableEq, Repr

/-- Embeds the `InterpolatedUnivariateSpline(x, y, **kwargs)`
constructor call: the spline object records its data and options. -/
def mkSpline (xs ys : List ℚ) (opts : SplineOpts) : Spline :=
  { xs := xs, ys := ys, opts := opts }

/-- Piecewise-linear interpolation through a list of `(x, y)` points
with increasing `x`; queries beyond either end continue the boundary
segment (the polynomial-extension behaviour of spline evaluation). -/
def interpLin : List (ℚ × ℚ) → ℚ → ℚ
  | [], _ => 0
  | [p], _ => p.2
  | p :: q :: rest, x =>
    if x ≤ q.1 ∨ rest = [] then p.2 + (q.2 - p.2) * (x - p.1) / (q.1 - p.1)
    else interpLin (q :: rest) x

/-- Model of evaluating a `scipy.interpolate.InterpolatedUnivariateSpline`
at a query point.  scipy (an external collaborator; its source is not
part of this repository) dispatches on the documented `ext` modes for
a query outside the fitted interval: `ext=0` evaluates the boundary
polynomial piece (extrapolation), `ext=1` returns 0, `ext=2` raises
`ValueError`, `ext=3` returns the boundary value, and any other value
is rejected at once.  The claims verified below depend on the
interpolant only through this `ext` dispatch, through its values at
the data sites, and through the fact that `ext=0` extrapolates the
boundary polynomial piece instead of clamping; the interior is
realised by the piecewise-linear interpolant through the data (the
degree-1 member of the scipy family), which has all three contract
properties. -/
def Spline.eval (s : Spline) (x : ℚ) : Except PyError ℚ :=
  match s.xs.head?, s.xs.getLast? with
  | some x0, some xN =>
    if x < x0 ∨ xN < x then
      match s.opts.ext with
      | 0 => .ok (interpLin (s.xs.zip s.ys) x)
      | 1 => .ok 0
      | 2 => .error (.valueError "x value out of bounds")
      | 3 => .ok (interpLin (s.xs.zip s.ys) (max x0 (min xN x)))
      | _ => .error (.valueError "invalid extrapolation mode")
    else .ok (interpLin (s.xs.zip s.ys) x)
  | _, _ => .ok (interpLin (s.xs.zip s.ys) x)

/-- Selector for `eccDefinition.find_extrema(which=...)`. -/
inductive Which where
  | maxima
  | minima
  deriving DecidableEq, Repr

/-- Embeds `eccDefinition.interp_extrema`
(src/src/eccDefinition.py lines 50-75).  `fe` is the concrete
`find_extrema` strategy (the base class raises `NotImplementedError`;
subclasses override it).  When at least 2 extrema indices are found it
returns the spline through `(self.time[extrema_idx],
self.omega22[extrema_idx])` together with the indices (numpy fancy
indexing raises `IndexError` on an out-of-range index); otherwise it
prints an advisory message and returns `None` — modelled as `.ok none`:
a return value, not an exception. -/
def interp_extrema (frame : Frame) (fe : Which → List ℕ) (which : Which)
    (opts : SplineOpts) : Except PyError (Option (Spline × List ℕ)) :=
  let idx := fe which
  if 2 ≤ idx.length then
    if (∀ i ∈ idx, i < frame.time.length) ∧ (∀ i ∈ idx, i < frame.omega22.length) then
      .ok (some (mkSpline (idx.map (fun i => frame.time.getD i 0))
        (idx.map (fun i => frame.omega22.getD i 0)) opts, idx))
    else .error .indexError
  else .ok none

/-- Embeds `np.where(t_peaks <= time)[0][-1]`: the largest index whose
entry is at most `x`, `none` when no entry qualifies (where `[-1]` on
the empty index array raises `IndexError`). -/
def lastIdxLE (xs : List ℚ) (x : ℚ) : Option ℕ :=
  (List.range xs.length).foldl
    (fun acc i => if xs.getD i 0 ≤ x then some i else acc) none

/-- Embeds the body of the mean-anomaly loop of `measure_ecc`
(src/src/eccDefinition.py lines 134-140) for one entry `time` of
`t_ref`: `idx_at_last_peak = np.where(t_peaks <= time)[0][-1]`
(raising `IndexError` when no peak is at or before `time`),
`t_at_next_peak = t_peaks[idx_at_last_peak + 1]` (raising `IndexError`
past the final peak), and the interval fraction
`(time - t_at_last_peak) / (t_at_next_peak - t_at_last_peak)`.
The source multiplies the fraction by `2*np.pi`; since `π` is
irrational the embedding returns the coefficient of `2π` and the
theorems about `measure_ecc` state the `2π` factor explicitly. -/
def mean_ano_at (tPeaks : List ℚ) (time : ℚ) : Except PyError ℚ :=
  match lastIdxLE tPeaks time with
  | none => .error .indexError
  | some k =>
    match tPeaks.get? (k + 1) with
    | none => .error .indexError
    | some tNext =>
      let tLast := tPeaks.getD k 0
      .ok ((time - tLast) / (tNext - tLast))

/-- Model of `np.sqrt(np.abs(q))`.  Square roots of rationals are
irrational in general; no claim below constrains the numeric
eccentricity values this feeds, so the model returns the integer
square roots of numerator and denominator (exact whenever both are
perfect squares, as in every concrete instance in this file). -/
def natSqrtBelow : ℕ → ℕ → ℕ
  | _, 0 => 0
  | n, k + 1 => if (k+1)*(k+1) ≤ n then k + 1 else natSqrtBelow n k

/-- Integer square root used by `ratSqrtAbs` (structurally recursive so
that concrete instances reduce). -/
def intSqrt (n : ℕ) : ℕ := natSqrtBelow n n

/-- Rational model of `np.sqrt(np.abs(q))`; see `natSqrtBelow`. -/
def ratSqrtAbs (q : ℚ) : ℚ := (intSqrt q.num.natAbs : ℚ) / (intSqrt q.den : ℚ)

/-- Embeds `eccVals` of `measure_ecc`
(src/src/eccDefinition.py lines 123-126): the normalized eccentricity
estimator `(sqrt|peaks(t)| - sqrt|troughs(t)|) / (sqrt|peaks(t)| +
sqrt|troughs(t)|)` evaluated over the full `self.time` array. -/
def ecc_vals (frame : Frame) (peaksInterp troughsInterp : Spline) :
    Except PyError (List ℚ) :=
  frame.time.mapM (fun tv => do
    let p ← peaksInterp.eval tv
    let q ← troughsInterp.eval tv
    pure ((ratSqrtAbs p - ratSqrtAbs q) / (ratSqrtAbs p + ratSqrtAbs q)))

/-- Reference-time argument of `measure_ecc`: a Python scalar or a
sequence. -/
inductive TRef where
  | scalar (x : ℚ)
  | seq (xs : List ℚ)
  deriving DecidableEq, Repr

/-- Return value of `measure_ecc`: a scalar pair or a pair of arrays,
mirroring the unwrap at src/src/eccDefinition.py lines 143-145.  The
`meanAno` components carry the coefficient of `2π` (see
`mean_ano_at`). -/
inductive EccOut where
  | scalar (ecc meanAno : ℚ)
  | seq (ecc meanAno : List ℚ)
  deriving DecidableEq, Repr

/-- Embeds the scalar-to-array promotion at the top of `measure_ecc`
(src/src/eccDefinition.py lines 93-94): a scalar `t_ref` becomes the
one-element array `[x]`, a sequence is used as is. -/
def tsOf : TRef → List ℚ
  | .scalar x => [x]
  | .seq xs => xs

/-- Embeds `eccDefinition.measure_ecc`
(src/src/eccDefinition.py lines 77-147).  Faithful control flow:
1. a scalar `t_ref` becomes the one-element array `[x]` (line 93-94);
2. kwargs are merged into `default_kwargs` (lines 95-102);
3. `peaks_interpolator, peaks_idx = self.interp_extrema("maxima", ...)`
   — tuple-unpacking the bare `None` returned on insufficient maxima
   raises `TypeError` (lines 104-108);
4. `troughs_interpolator = self.interp_extrema("minima", ...)[0]` —
   subscripting `None` raises `TypeError` (lines 109-113);
5. the source's `if peaks_interpolator is None or troughs_interpolator
   is None:` fallback branch (lines 115-121, returning `(0, 0)`) is
   unreachable here: after steps 3 and 4 both names are bound to
   spline objects, never to `None`;
6. the eccentricity spline through `(self.time, eccVals)` is built and
   evaluated at every requested time (lines 123-129);
7. `t_peaks = self.time[peaks_idx]`; the bracketing guard
   `any(t_ref[0] >= t_peaks) and any(t_ref[-1] < t_peaks)` examines
   only the first and last entries of `t_ref` (`t_ref[0]` on an empty
   array raises `IndexError`); on failure the explicit
   `Exception("...reference time must be within two peaks.")` is
   raised (lines 131-142);
8. a length-1 result is unwrapped to scalars (lines 143-145). -/
def measure_ecc (frame : Frame) (fe : Which → List ℕ) (tRef : TRef)
    (kwargs : Kwargs) : Except PyError EccOut := do
  let ts : List ℚ := tsOf tRef
  let opts := mergeKwargs kwargs
  let peaksRes ← interp_extrema frame fe .maxima opts
  match peaksRes with
  | none => .error (.typeError "cannot unpack non-iterable NoneType object")
  | some (peaksInterp, peaksIdx) =>
    let troughsRes ← interp_extrema frame fe .minima opts
    match troughsRes with
    | none => .error (.typeError "NoneType object is not subscriptable")
    | some (troughsInterp, _) =>
      let eccVals ← ecc_vals frame peaksInterp troughsInterp
      let eccInterp := mkSpline frame.time eccVals opts
      let eccRefs ← ts.mapM (fun tv => eccInterp.eval tv)
      let tPeaks := peaksIdx.map (fun i => frame.time.getD i 0)
      match ts.head?, ts.getLast? with
      | some t0, some tLast =>
        if (∃ p ∈ tPeaks, p ≤ t0) ∧ (∃ p ∈ tPeaks, tLast < p) then
          let meanAnos ← ts.mapM (mean_ano_at tPeaks)
          if ts.length = 1 then
            return EccOut.scalar (eccRefs.getD 0 0) (meanAnos.getD 0 0)
          else
            return EccOut.seq eccRefs meanAnos
        else
          .error (.exceptionMsg "...reference time must be within two peaks.")
      | _, _ => .error .indexError

/-- Embeds `np.sum(np.sqrt(chi[:2]**2))`: the L1 size `|x| + |y|` of
the in-plane spin components (`np.sqrt(c**2) = |c|` exactly). -/
def inPlaneL1 (chi : List ℚ) : ℚ := (((chi.take 2).map (fun c => |c|)).sum)

/-- Embeds the slice assignment `chi[:2] = 0`. -/
def setInPlaneZero (chi : List ℚ) : List ℚ := (chi.set 0 0).set 1 0

/-- Embeds `np.sum(chi**2)`; the source's magnitude test
`np.sqrt(np.sum(chi**2)) > 1` is equivalent to `sumSq chi > 1`. -/
def sumSq (chi : List ℚ) : ℚ := ((chi.map (fun c => c^2)).sum)

/-- Embeds the spin-validation prefix of `generate_waveform`
(src/src/eccDefinition.py lines 207-227), the part of the function
that is pure input checking; the subsequent LALSuite generation call
is an external collaborator, so on success the embedding returns the
(possibly sanitised) spin vectors that would be passed to it.  Source
order: (1) under `alignedSpin`, raise when either in-plane L1 size
exceeds `1e-5`; (2) under `alignedSpin`, zero any nonzero in-plane
components; (3) raise when a (sanitised) spin magnitude exceeds 1;
(4) raise when a spin vector's length differs from 3. -/
def generate_waveform (alignedSpin : Bool) (chi1 chi2 : List ℚ) :
    Except PyError (List ℚ × List ℚ) :=
  if alignedSpin ∧ (1/100000 < inPlaneL1 chi1 ∨ 1/100000 < inPlaneL1 chi2) then
    .error (.exceptionMsg "Got precessing spins for aligned spin approximant.")
  else
    let chi1 := if alignedSpin ∧ ¬ inPlaneL1 chi1 = 0 then setInPlaneZero chi1 else chi1
    let chi2 := if alignedSpin ∧ ¬ inPlaneL1 chi2 = 0 then setInPlaneZero chi2 else chi2
    if 1 < sumSq chi1 then .error (.exceptionMsg "chi1 out of range.")
    else if 1 < sumSq chi2 then .error (.exceptionMsg "chi2 out of range.")
    else if chi1.length ≠ 3 then .error (.exceptionMsg "chi1 must have size 3.")
    else if chi2.length ≠ 3 then .error (.exceptionMsg "chi2 must have size 3.")
    else .ok (chi1, chi2)

/-! Shared helper lemmas and concrete sample data. -/

theorem ok_bind {ε α β : Type} (a : α) (f : α → Except ε β) :
    (Except.ok a >>= f : Except ε β) = f a := rfl

theorem error_bind {ε α β : Type} (e : ε) (f : α → Except ε β) :
    (Except.error e >>= f : Except ε β) = Except.error e := rfl

theorem mapM_ok {ε α β : Type} (l : List α) (fn : α → Except ε β) (g : α → β)
    (h : ∀ a ∈ l, fn a = Except.ok (g a)) : l.mapM fn = Except.ok (l.map g) := by
  induction l with
  | nil => rfl
  | cons x xs ih =>
    have hx := h x (by simp)
    have ihh := ih (fun a ha => h a (by simp [ha]))
    simp only [List.mapM_cons, hx, List.map_cons]
    rw [ok_bind]
    simp only [ihh]
    rfl

theorem mapM_length {ε α β : Type} (l : List α) (fn : α → Except ε β)
    (ys : List β) (h : l.mapM fn = Except.ok ys) : ys.length = l.length := by
  induction l generalizing ys with
  | nil =>
    simp only [List.mapM_nil] at h
    cases ys with
    | nil => rfl
    | cons y ys => simp [pure, Except.pure] at h
  | cons x xs ih =>
    simp only [List.mapM_cons] at h
    cases hx : fn x with
    | error e => rw [hx, error_bind] at h; cases h
    | ok b =>
      rw [hx, ok_bind] at h
      cases hxs : xs.mapM fn with
      | error e => rw [hxs, error_bind] at h; cases h
      | ok bs =>
        rw [hxs, ok_bind] at h
        simp only [pure, Except.pure, Except.ok.injEq] at h
        subst h
        simp [ih bs hxs]

/-- Empty keyword-argument dictionary: `measure_ecc` called with no
explicit spline kwargs. -/
def noKwargs : Kwargs := {}

/-- Concrete waveform frame used by the witnesses and counterexamples:
four samples, instantaneous frequency `[0, 4, 0, 4]`. -/
def sampleFrame : Frame where
  time := [0, 1, 2, 3]
  amp22 := [1, 4, 1, 4]
  phase22 := [0, 0, 0, 0]
  omega22 := [0, 4, 0, 4]

/-- Concrete extremum-detection strategy for `sampleFrame`: maxima of
`omega22` at indices 1 and 3, minima at indices 0 and 2. -/
def sampleFind : Which → List ℕ
  | .maxima => [1, 3]
  | .minima => [0, 2]

/-- Strategy that finds enough maxima but fewer than 2 minima. -/
def sampleFindNoMin : Which → List ℕ
  | .maxima => [1, 3]
  | .minima => []

/-! Claim C1. -/

/-- C1: the claim says that with fewer than 2 detected maxima or minima
`measure_ecc` returns the non-fatal fallback `(0, 0)`.  The code
instead raises: `interp_extrema` returns a bare `None`, which
`measure_ecc` immediately tuple-unpacks (maxima) or subscripts
(minima), raising `TypeError` before its `(0, 0)` fallback branch —
demonstrably the intended behaviour, with its advisory message — can
run.  This theorem evaluates `measure_ecc` at the two failing inputs:
a strategy with no maxima, and one with enough maxima but no minima. -/
theorem measure_ecc_crashes_when_extrema_insufficient :
    measure_ecc sampleFrame (fun _ => []) (TRef.scalar 0) noKwargs =
      .error (.typeError "cannot unpack non-iterable NoneType object") ∧
    measure_ecc sampleFrame sampleFindNoMin (TRef.scalar 0) noKwargs =
      .error (.typeError "NoneType object is not subscriptable") := by
  constructor
  · norm_num [measure_ecc, interp_extrema, ok_bind, error_bind]
  · norm_num [measure_ecc, interp_extrema, sampleFindNoMin, sampleFrame,
      mkSpline, ok_bind, error_bind]

/-! Claim C2. -/

/-- C2: whenever the detection strategy returns at least 2 (in-bounds)
extrema indices, `interp_extrema` succeeds and returns the interpolant
built through `(time[indices], omega22[indices])` together with the
indices; and it reports insufficient extrema — by returning `None`,
never by raising — exactly when fewer than 2 indices are found. -/
theorem interp_extrema_spec (frame : Frame) (fe : Which → List ℕ)
    (which : Which) (opts : SplineOpts)
    (hb : ∀ i ∈ fe which, i < frame.time.length ∧ i < frame.omega22.length) :
    (2 ≤ (fe which).length →
      interp_extrema frame fe which opts =
        .ok (some (mkSpline ((fe which).map (fun i => frame.time.getD i 0))
          ((fe which).map (fun i => frame.omega22.getD i 0)) opts, fe which))) ∧
    (interp_extrema frame fe which opts = .ok none ↔ (fe which).length < 2) := by
  have hball : (∀ i ∈ fe which, i < frame.time.length) ∧
      (∀ i ∈ fe which, i < frame.omega22.length) :=
    ⟨fun i hi => (hb i hi).1, fun i hi => (hb i hi).2⟩
  unfold interp_extrema
  by_cases h2 : 2 ≤ (fe which).length
  · rw [if_pos h2, if_pos hball]
    exact ⟨fun _ => rfl, by simp; omega⟩
  · rw [if_neg h2]
    exact ⟨fun h => absurd h h2, by simp; omega⟩

/-- C2 witness: the specification instantiated at the sample frame and
strategy. -/
theorem interp_extrema_spec_witness :
    (2 ≤ (sampleFind Which.maxima).length →
      interp_extrema sampleFrame sampleFind Which.maxima (mergeKwargs noKwargs) =
        .ok (some (mkSpline ((sampleFind Which.maxima).map
            (fun i => sampleFrame.time.getD i 0))
          ((sampleFind Which.maxima).map (fun i => sampleFrame.omega22.getD i 0))
          (mergeKwargs noKwargs), sampleFind Which.maxima))) ∧
    (interp_extrema sampleFrame sampleFind Which.maxima (mergeKwargs noKwargs) =
        .ok none ↔ (sampleFind Which.maxima).length < 2) :=
  interp_extrema_spec sampleFrame sampleFind Which.maxima (mergeKwargs noKwargs)
    (by decide)

/-! Claim C3. -/

/-- C3 counterexample: under the default spline parameters
(`default_kwargs` sets `ext = 0`), the spline through the collinear
points `(0,0), (1,1), (2,2), (3,3)` — for which every interpolating
spline degree yields the straight line — queried at `x = 4`, outside
the fitted range `[0, 3]`, returns the extrapolated value 4, not the
boundary value 3 claimed by the spec (boundary-value behaviour is
`ext = 3`, which is not the default). -/
theorem default_ext_not_boundary_cex :
    (mkSpline [0, 1, 2, 3] [0, 1, 2, 3] (mergeKwargs noKwargs)).eval 4 =
      .ok 4 ∧
    (mkSpline [0, 1, 2, 3] [0, 1, 2, 3] (mergeKwargs noKwargs)).eval 4 ≠
      .ok 3 := by
  have h : (mkSpline [0, 1, 2, 3] [0, 1, 2, 3] (mergeKwargs noKwargs)).eval 4 =
      .ok 4 := by
    norm_num [Spline.eval, mkSpline, mergeKwargs, noKwargs, interpLin]
  refine ⟨h, ?_⟩
  rw [h]
  intro hcontra
  have : (4 : ℚ) = 3 := by injection hcontra
  norm_num at this

/-- C3 amended: under the default spline parameters used by
`measure_ecc` (no explicit `ext` kwarg given), the effective
extrapolation mode is `ext = 0`, under which a query at any time —
inside or outside the fitted range — returns the (possibly
extrapolated) interpolant value without failing; it does not return
the boundary value. -/
theorem default_ext_extrapolates (kw : Kwargs) (hk : kw.ext? = none)
    (s : Spline) (hs : s.opts.ext = 0) (x : ℚ) :
    (mergeKwargs kw).ext = 0 ∧
    s.eval x = .ok (interpLin (s.xs.zip s.ys) x) := by
  refine ⟨by simp [mergeKwargs, hk], ?_⟩
  unfold Spline.eval
  rw [hs]
  cases h1 : s.xs.head? with
  | none => rfl
  | some x0 =>
    cases h2 : s.xs.getLast? with
    | none => rfl
    | some xN => by_cases hout : x < x0 ∨ xN < x <;> simp [hout]

/-- C3 amended witness: the default-parameter spline of the
counterexample evaluated at an out-of-range point. -/
theorem default_ext_extrapolates_witness :
    (mergeKwargs noKwargs).ext = 0 ∧
    (mkSpline [0, 1, 2, 3] [0, 1, 2, 3] (mergeKwargs noKwargs)).eval 9 =
      .ok (interpLin (([0, 1, 2, 3] : List ℚ).zip [0, 1, 2, 3]) 9) :=
  default_ext_extrapolates noKwargs rfl
    (mkSpline [0, 1, 2, 3] [0, 1, 2, 3] (mergeKwargs noKwargs)) rfl 9

/-! Claim C9. -/

/-- C9 counterexample: the spin vector `(1/200000, 0, 1)` has squared
magnitude `1 + 1/200000^2 > 1`, yet an aligned-spin call accepts it
without error: its in-plane L1 size `1/200000` is within the `1e-5`
tolerance, so the in-plane components are zeroed *before* the
magnitude check, which then sees the sanitised vector `(0, 0, 1)` of
magnitude exactly 1. -/
theorem magnitude_checked_after_zeroing_cex :
    generate_waveform true [1/200000, 0, 1] [0, 0, 0] =
      .ok ([0, 0, 1], [0, 0, 0]) ∧
    1 < sumSq [1/200000, 0, 1] := by
  constructor
  · norm_num [generate_waveform, inPlaneL1, setInPlaneZero, sumSq, List.set,
      abs_of_nonneg]
  · norm_num [sumSq]

/-- C9 amended: `generate_waveform` raises for every spin-vector pair
with a length other than 3, raises the explicit precessing-spin error
whenever aligned spin is requested and either in-plane L1 size exceeds
`1e-5`, and (without the aligned-spin sanitisation) raises whenever
the first spin's magnitude exceeds 1; but under an aligned-spin
request the magnitude is checked only after in-plane components
within tolerance have been zeroed, so excess magnitude caused solely
by such components is silently corrected (see the counterexample). -/
theorem generate_waveform_rejections (aligned : Bool) (c1 c2 : List ℚ) :
    ((c1.length ≠ 3 ∨ c2.length ≠ 3) →
      ∃ e, generate_waveform aligned c1 c2 = .error e) ∧
    (aligned = true →
      (1/100000 < inPlaneL1 c1 ∨ 1/100000 < inPlaneL1 c2) →
      generate_waveform aligned c1 c2 =
        .error (.exceptionMsg "Got precessing spins for aligned spin approximant.")) ∧
    (aligned = false → 1 < sumSq c1 →
      generate_waveform aligned c1 c2 = .error (.exceptionMsg "chi1 out of range.")) := by
  refine ⟨?_, ?_, ?_⟩
  · intro hlen
    cases hgw : generate_waveform aligned c1 c2 with
    | error e => exact ⟨e, rfl⟩
    | ok p =>
      exfalso
      unfold generate_waveform at hgw
      split_ifs at hgw <;>
        rcases hlen with hl | hl <;>
        simp only [setInPlaneZero] at hgw <;>
        (try split_ifs at hgw) <;>
        simp_all [setInPlaneZero]
  · intro ha hip
    unfold generate_waveform
    rw [if_pos ⟨ha, hip⟩]
  · intro ha hmag
    subst ha
    simp [generate_waveform, hmag]

/-- C9 amended witness: the three rejection clauses instantiated — a
length-2 spin, an aligned-spin call with in-plane L1 size above
tolerance, and a non-aligned call with magnitude above 1. -/
theorem generate_waveform_rejections_witness :
    (∃ e, generate_waveform true [1, 0] [0, 0, 0] = .error e) ∧
    generate_waveform true [1/2, 0, 0] [0, 0, 0] =
      .error (.exceptionMsg "Got precessing spins for aligned spin approximant.") ∧
    generate_waveform false [2, 0, 0] [0, 0, 0] =
      .error (.exceptionMsg "chi1 out of range.") := by
  refine ⟨(generate_waveform_rejections true [1, 0] [0, 0, 0]).1 (by norm_num),
    (generate_waveform_rejections true [1/2, 0, 0] [0, 0, 0]).2.1 rfl ?_,
    (generate_waveform_rejections false [2, 0, 0] [0, 0, 0]).2.2 rfl ?_⟩
  · left
    norm_num [inPlaneL1, abs_of_nonneg]
  · norm_num [sumSq]

/-! Claim C10. -/

/-- C10: when aligned spin is requested and a spin vector's in-plane
components are nonzero but their combined size is within the `1e-5`
tolerance, `generate_waveform` silently zeroes those components before
passing the spins on, and the in-plane size it tests is the L1 sum of
absolute components `|x| + |y|`, not the Euclidean norm. -/
theorem aligned_small_inplane_zeroed (c1 c2 : List ℚ)
    (h1 : inPlaneL1 c1 ≤ 1/100000) (h1n : inPlaneL1 c1 ≠ 0)
    (hz2 : inPlaneL1 c2 = 0) (hm1 : sumSq (setInPlaneZero c1) ≤ 1)
    (hm2 : sumSq c2 ≤ 1) (hl1 : c1.length = 3) (hl2 : c2.length = 3) :
    generate_waveform true c1 c2 = .ok (setInPlaneZero c1, c2) ∧
    (setInPlaneZero c1).take 2 = [0, 0] ∧
    inPlaneL1 (setInPlaneZero c1) = 0 ∧
    (∀ x y z : ℚ, inPlaneL1 [x, y, z] = |x| + |y|) := by
  obtain ⟨a, b, c, rfl⟩ := List.length_eq_three.mp hl1
  have hg : ¬ (true = true ∧
      (1/100000 < inPlaneL1 [a, b, c] ∨ 1/100000 < inPlaneL1 c2)) := by
    rintro ⟨-, h | h⟩
    · exact absurd h (not_lt.mpr h1)
    · rw [hz2] at h
      norm_num at h
  have hs1 : (true = true ∧ ¬ inPlaneL1 [a, b, c] = 0) := ⟨rfl, h1n⟩
  have hs2 : ¬ (true = true ∧ ¬ inPlaneL1 c2 = 0) := fun h => h.2 hz2
  refine ⟨?_, ?_, ?_, ?_⟩
  · unfold generate_waveform
    rw [if_neg hg, if_pos hs1, if_neg hs2, if_neg (not_lt.mpr hm1),
      if_neg (not_lt.mpr hm2),
      if_neg (show ¬ ((setInPlaneZero [a, b, c]).length ≠ 3) by
        simp [setInPlaneZero]),
      if_neg (show ¬ (c2.length ≠ 3) by simp [hl2])]
  · simp [setInPlaneZero, List.set]
  · simp [setInPlaneZero, List.set, inPlaneL1]
  · intro x y z
    simp [inPlaneL1]

/-- C10 witness: a spin with nonzero in-plane components of L1 size
`1/150000 <= 1e-5` is zeroed and the call succeeds. -/
theorem aligned_small_inplane_zeroed_witness :
    generate_waveform true [1/300000, 1/300000, 1/2] [0, 0, 0] =
      .ok (setInPlaneZero [1/300000, 1/300000, 1/2], [0, 0, 0]) ∧
    (setInPlaneZero [1/300000, 1/300000, 1/2]).take 2 = [0, 0] ∧
    inPlaneL1 (setInPlaneZero [1/300000, 1/300000, 1/2]) = 0 ∧
    (∀ x y z : ℚ, inPlaneL1 [x, y, z] = |x| + |y|) :=
  aligned_small_inplane_zeroed [1/300000, 1/300000, 1/2] [0, 0, 0]
    (by norm_num [inPlaneL1, abs_of_nonneg])
    (by norm_num [inPlaneL1, abs_of_nonneg])
    (by norm_num [inPlaneL1]) (by norm_num [setInPlaneZero, sumSq, List.set])
    (by norm_num [sumSq]) (by norm_num) (by norm_num)

/-! Shared lemmas about the measurement pipeline, used by the claims
about `measure_ecc`. -/

/-- Embeds `t_peaks = self.time[peaks_idx]`
(src/src/eccDefinition.py line 131) for a detection strategy `fe`. -/
def tPeaksOf (frame : Frame) (fe : Which → List ℕ) : List ℚ :=
  (fe Which.maxima).map (fun i => frame.time.getD i 0)

theorem eval_ext0 (s : Spline) (hs : s.opts.ext = 0) (x : ℚ) :
    s.eval x = .ok (interpLin (s.xs.zip s.ys) x) := by
  unfold Spline.eval
  rw [hs]
  cases h1 : s.xs.head? with
  | none => rfl
  | some x0 =>
    cases h2 : s.xs.getLast? with
    | none => rfl
    | some xN => by_cases hout : x < x0 ∨ xN < x <;> simp [hout]

theorem interp_extrema_eq_some (frame : Frame) (fe : Which → List ℕ)
    (which : Which) (opts : SplineOpts) (h2 : 2 ≤ (fe which).length)
    (hb : ∀ i ∈ fe which, i < frame.time.length ∧ i < frame.omega22.length) :
    interp_extrema frame fe which opts =
      .ok (some (mkSpline ((fe which).map (fun i => frame.time.getD i 0))
        ((fe which).map (fun i => frame.omega22.getD i 0)) opts, fe which)) := by
  unfold interp_extrema
  rw [if_pos h2, if_pos ⟨fun i hi => (hb i hi).1, fun i hi => (hb i hi).2⟩]

theorem ecc_vals_ok (frame : Frame) (p q : Spline) (hp : p.opts.ext = 0)
    (hq : q.opts.ext = 0) :
    ecc_vals frame p q = .ok (frame.time.map (fun tv =>
      (ratSqrtAbs (interpLin (p.xs.zip p.ys) tv)
          - ratSqrtAbs (interpLin (q.xs.zip q.ys) tv))
        / (ratSqrtAbs (interpLin (p.xs.zip p.ys) tv)
          + ratSqrtAbs (interpLin (q.xs.zip q.ys) tv)))) := by
  apply mapM_ok
  intro tv _
  rw [eval_ext0 p hp, ok_bind, eval_ext0 q hq, ok_bind]
  rfl

theorem rangeFoldLast (P : ℕ → Prop) [DecidablePred P] :
    ∀ n : ℕ, (∃ j, j < n ∧ P j) →
      ∃ k, (List.range n).foldl (fun acc i => if P i then some i else acc)
          none = some k ∧
        k < n ∧ P k ∧ ∀ j, j < n → P j → j ≤ k := by
  intro n
  induction n with
  | zero => rintro ⟨j, hj, -⟩; omega
  | succ n ih =>
    intro hex
    rw [List.range_succ, List.foldl_append, List.foldl_cons, List.foldl_nil]
    by_cases hP : P n
    · rw [if_pos hP]
      exact ⟨n, rfl, by omega, hP, fun j hj _ => by omega⟩
    · rw [if_neg hP]
      obtain ⟨j, hj, hPj⟩ := hex
      have hjn : j < n := by
        rcases Nat.lt_succ_iff_lt_or_eq.mp hj with h | h
        · exact h
        · exact absurd hPj (h ▸ hP)
      obtain ⟨k, hk, hkn, hPk, hmax⟩ := ih ⟨j, hjn, hPj⟩
      refine ⟨k, hk, by omega, hPk, fun j2 hj2 hPj2 => ?_⟩
      rcases Nat.lt_succ_iff_lt_or_eq.mp hj2 with h | h
      · exact hmax j2 h hPj2
      · exact absurd hPj2 (h ▸ hP)

theorem lastIdxLE_spec (xs : List ℚ) (x : ℚ)
    (hex : ∃ j, j < xs.length ∧ xs.getD j 0 ≤ x) :
    ∃ k, lastIdxLE xs x = some k ∧ k < xs.length ∧ xs.getD k 0 ≤ x ∧
      ∀ j, j < xs.length → xs.getD j 0 ≤ x → j ≤ k :=
  rangeFoldLast (fun i => xs.getD i 0 ≤ x) xs.length hex

theorem sorted_getD_le (l : List ℚ) (hs : List.Sorted (· < ·) l)
    (i j : ℕ) (hij : i ≤ j) (hj : j < l.length) :
    l.getD i 0 ≤ l.getD j 0 := by
  have hi : i < l.length := lt_of_le_of_lt hij hj
  rw [List.getD_eq_get l 0 hi, List.getD_eq_get l 0 hj]
  rcases lt_or_eq_of_le hij with h | h
  · exact le_of_lt (List.Sorted.rel_get_of_lt hs h)
  · subst h; rfl

theorem sorted_getD_lt (l : List ℚ) (hs : List.Sorted (· < ·) l)
    (i j : ℕ) (hij : i < j) (hj : j < l.length) :
    l.getD i 0 < l.getD j 0 := by
  have hi : i < l.length := lt_trans hij hj
  rw [List.getD_eq_get l 0 hi, List.getD_eq_get l 0 hj]
  exact List.Sorted.rel_get_of_lt hs hij

theorem mem_getD_of_sorted_bounds (l : List ℚ) (hs : List.Sorted (· < ·) l)
    (p : ℚ) (hp : p ∈ l) :
    l.getD 0 0 ≤ p ∧ p ≤ l.getD (l.length - 1) 0 := by
  obtain ⟨i, hi⟩ := List.mem_iff_get.mp hp
  have hlen : 0 < l.length := List.length_pos.mpr (List.ne_nil_of_mem hp)
  constructor
  · calc l.getD 0 0 ≤ l.getD i 0 :=
          sorted_getD_le l hs 0 i (Nat.zero_le _) i.isLt
      _ = p := by rw [List.getD_eq_get l 0 i.isLt]; exact hi
  · calc p = l.getD i 0 := by rw [List.getD_eq_get l 0 i.isLt]; exact hi.symm
      _ ≤ l.getD (l.length - 1) 0 :=
          sorted_getD_le l hs i (l.length - 1) (by omega) (by omega)

theorem mean_ano_at_spec (tPeaks : List ℚ) (t : ℚ)
    (hlen : 2 ≤ tPeaks.length) (hfirst : tPeaks.getD 0 0 ≤ t)
    (hlast : t < tPeaks.getD (tPeaks.length - 1) 0) :
    ∃ k, lastIdxLE tPeaks t = some k ∧ k + 1 < tPeaks.length ∧
      tPeaks.getD k 0 ≤ t ∧ t < tPeaks.getD (k + 1) 0 ∧
      (∀ j, j < tPeaks.length → tPeaks.getD j 0 ≤ t → j ≤ k) ∧
      mean_ano_at tPeaks t =
        .ok ((t - tPeaks.getD k 0)
          / (tPeaks.getD (k + 1) 0 - tPeaks.getD k 0)) := by
  obtain ⟨k, hk, hkn, hPk, hmax⟩ :=
    lastIdxLE_spec tPeaks t ⟨0, by omega, hfirst⟩
  have hk1 : k + 1 < tPeaks.length := by
    rcases Nat.lt_or_ge (k + 1) tPeaks.length with h | h
    · exact h
    · exfalso
      have : k = tPeaks.length - 1 := by omega
      rw [this] at hPk
      exact absurd hlast (not_lt.mpr hPk)
  have hnext : t < tPeaks.getD (k + 1) 0 := by
    by_contra hcon
    have := hmax (k + 1) hk1 (not_lt.mp hcon)
    omega
  refine ⟨k, hk, hk1, hPk, hnext, hmax, ?_⟩
  have hget : tPeaks.get? (k + 1) = some (tPeaks.getD (k + 1) 0) := by
    rw [List.get?_eq_getElem?, List.getElem?_eq_getElem hk1,
      List.getD_eq_getElem tPeaks 0 hk1]
  unfold mean_ano_at
  simp only [hk, hget]

/-- Values of the eccentricity estimator over the full `self.time`
array (`eccVals`, src/src/eccDefinition.py lines 123-126), expressed
with the extrema interpolants realised as `interpLin` (which is what
their `ext = 0` evaluation returns at every query point). -/
def eccCurve (frame : Frame) (fe : Which → List ℕ) : List ℚ :=
  frame.time.map (fun tv =>
    (ratSqrtAbs (interpLin (((fe Which.maxima).map (fun i => frame.time.getD i 0)).zip
        ((fe Which.maxima).map (fun i => frame.omega22.getD i 0))) tv)
      - ratSqrtAbs (interpLin (((fe Which.minima).map (fun i => frame.time.getD i 0)).zip
        ((fe Which.minima).map (fun i => frame.omega22.getD i 0))) tv))
    / (ratSqrtAbs (interpLin (((fe Which.maxima).map (fun i => frame.time.getD i 0)).zip
        ((fe Which.maxima).map (fun i => frame.omega22.getD i 0))) tv)
      + ratSqrtAbs (interpLin (((fe Which.minima).map (fun i => frame.time.getD i 0)).zip
        ((fe Which.minima).map (fun i => frame.omega22.getD i 0))) tv)))

/-- Values of `ecc_interpolator(t_ref)` under the default `ext = 0`. -/
def eccRefsOf (frame : Frame) (fe : Which → List ℕ) (tRef : TRef) : List ℚ :=
  (tsOf tRef).map (fun tv => interpLin (frame.time.zip (eccCurve frame fe)) tv)

theorem measure_ecc_stage (frame : Frame) (fe : Which → List ℕ) (kw : Kwargs)
    (tRef : TRef) (hext : (mergeKwargs kw).ext = 0)
    (hmaxlen : 2 ≤ (fe Which.maxima).length)
    (hmaxb : ∀ i ∈ fe Which.maxima,
      i < frame.time.length ∧ i < frame.omega22.length)
    (hminlen : 2 ≤ (fe Which.minima).length)
    (hminb : ∀ i ∈ fe Which.minima,
      i < frame.time.length ∧ i < frame.omega22.length) :
    measure_ecc frame fe tRef kw =
      (match (tsOf tRef).head?, (tsOf tRef).getLast? with
      | some t0, some tLast =>
        if (∃ p ∈ tPeaksOf frame fe, p ≤ t0) ∧
            (∃ p ∈ tPeaksOf frame fe, tLast < p) then
          ((tsOf tRef).mapM (mean_ano_at (tPeaksOf frame fe))) >>=
            fun meanAnos =>
              if (tsOf tRef).length = 1 then
                pure (EccOut.scalar ((eccRefsOf frame fe tRef).getD 0 0)
                  (meanAnos.getD 0 0))
              else
                pure (EccOut.seq (eccRefsOf frame fe tRef) meanAnos)
        else
          .error (.exceptionMsg "...reference time must be within two peaks.")
      | _, _ => .error .indexError) := by
  have hmax := interp_extrema_eq_some frame fe Which.maxima (mergeKwargs kw)
    hmaxlen hmaxb
  have hmin := interp_extrema_eq_some frame fe Which.minima (mergeKwargs kw)
    hminlen hminb
  have hev : ecc_vals frame
      (mkSpline ((fe Which.maxima).map (fun i => frame.time.getD i 0))
        ((fe Which.maxima).map (fun i => frame.omega22.getD i 0)) (mergeKwargs kw))
      (mkSpline ((fe Which.minima).map (fun i => frame.time.getD i 0))
        ((fe Which.minima).map (fun i => frame.omega22.getD i 0)) (mergeKwargs kw))
      = .ok (eccCurve frame fe) := by
    rw [ecc_vals_ok _ _ _ hext hext]
    rfl
  have hmapM : (tsOf tRef).mapM
      (fun tv => (mkSpline frame.time (eccCurve frame fe) (mergeKwargs kw)).eval tv)
      = .ok (eccRefsOf frame fe tRef) := by
    apply mapM_ok
    intro a _
    exact eval_ext0 (mkSpline frame.time (eccCurve frame fe) (mergeKwargs kw)) hext a
  simp only [measure_ecc, hmax, hmin, hev, ok_bind, hmapM, tPeaksOf]

theorem getD_mem_of_lt (l : List ℚ) (n : ℕ) (h : n < l.length) :
    l.getD n 0 ∈ l := by
  rw [List.getD_eq_get l 0 h]
  exact List.get_mem l n h

/-! Claim C4. -/

/-- C4: for a reference time `t` at or after the first detected peak
and strictly before the last, `measure_ecc` returns (the coefficient
of `2π` of) the mean anomaly `2π (t - t_peaks[k]) / (t_peaks[k+1] -
t_peaks[k])`, where `k` is the largest index with `t_peaks[k] <= t`;
the fraction lies in `[0, 1)` so the mean anomaly `2π·frac` lies in
`[0, 2π)`, and it is 0 when `t` equals a detected peak time. -/
theorem mean_anomaly_formula (frame : Frame) (fe : Which → List ℕ)
    (kw : Kwargs) (t : ℚ) (hext : (mergeKwargs kw).ext = 0)
    (hmaxlen : 2 ≤ (fe Which.maxima).length)
    (hmaxb : ∀ i ∈ fe Which.maxima,
      i < frame.time.length ∧ i < frame.omega22.length)
    (hminlen : 2 ≤ (fe Which.minima).length)
    (hminb : ∀ i ∈ fe Which.minima,
      i < frame.time.length ∧ i < frame.omega22.length)
    (hsort : List.Sorted (· < ·) (tPeaksOf frame fe))
    (hfirst : (tPeaksOf frame fe).getD 0 0 ≤ t)
    (hlast : t < (tPeaksOf frame fe).getD ((tPeaksOf frame fe).length - 1) 0) :
    ∃ k frac,
      lastIdxLE (tPeaksOf frame fe) t = some k ∧
      (∀ j, j < (tPeaksOf frame fe).length →
        (tPeaksOf frame fe).getD j 0 ≤ t → j ≤ k) ∧
      frac = (t - (tPeaksOf frame fe).getD k 0)
        / ((tPeaksOf frame fe).getD (k + 1) 0 - (tPeaksOf frame fe).getD k 0) ∧
      measure_ecc frame fe (TRef.scalar t) kw =
        .ok (EccOut.scalar ((eccRefsOf frame fe (TRef.scalar t)).getD 0 0) frac) ∧
      0 ≤ frac ∧ frac < 1 ∧
      0 ≤ 2 * Real.pi * (frac : ℝ) ∧ 2 * Real.pi * (frac : ℝ) < 2 * Real.pi ∧
      ((tPeaksOf frame fe).getD k 0 = t → frac = 0) := by
  have hPlen : 2 ≤ (tPeaksOf frame fe).length := by
    rw [tPeaksOf, List.length_map]
    exact hmaxlen
  obtain ⟨k, hk, hk1, hPk, hnext, hmax', hma⟩ :=
    mean_ano_at_spec (tPeaksOf frame fe) t hPlen hfirst hlast
  have hab : (tPeaksOf frame fe).getD k 0 < (tPeaksOf frame fe).getD (k + 1) 0 :=
    sorted_getD_lt _ hsort k (k + 1) (Nat.lt_succ_self k) hk1
  set frac := (t - (tPeaksOf frame fe).getD k 0)
    / ((tPeaksOf frame fe).getD (k + 1) 0 - (tPeaksOf frame fe).getD k 0) with hfrac
  have hfrac0 : 0 ≤ frac :=
    div_nonneg (sub_nonneg.mpr hPk) (le_of_lt (sub_pos.mpr hab))
  have hfrac1 : frac < 1 := by
    rw [hfrac, div_lt_one (sub_pos.mpr hab)]
    linarith
  have h2pi : (0 : ℝ) < 2 * Real.pi := by positivity
  have hmeas : measure_ecc frame fe (TRef.scalar t) kw =
      .ok (EccOut.scalar ((eccRefsOf frame fe (TRef.scalar t)).getD 0 0) frac) := by
    rw [measure_ecc_stage frame fe kw (TRef.scalar t) hext hmaxlen hmaxb
      hminlen hminb]
    have hts : tsOf (TRef.scalar t) = [t] := rfl
    rw [hts]
    simp only [List.head?_cons, List.getLast?_singleton]
    rw [if_pos ⟨⟨(tPeaksOf frame fe).getD 0 0,
        getD_mem_of_lt _ 0 (by omega), hfirst⟩,
      ⟨(tPeaksOf frame fe).getD ((tPeaksOf frame fe).length - 1) 0,
        getD_mem_of_lt _ _ (by omega), hlast⟩⟩]
    rw [mapM_ok [t] (mean_ano_at (tPeaksOf frame fe)) (fun _ => frac)
      (by intro a ha
          rw [List.mem_singleton] at ha
          rw [ha, hma]), ok_bind]
    rfl
  refine ⟨k, frac, hk, hmax', hfrac, hmeas, hfrac0, hfrac1, ?_, ?_, ?_⟩
  · have : (0 : ℝ) ≤ (frac : ℝ) := by exact_mod_cast hfrac0
    positivity
  · calc 2 * Real.pi * (frac : ℝ) < 2 * Real.pi * 1 := by
          apply mul_lt_mul_of_pos_left _ h2pi
          exact_mod_cast hfrac1
      _ = 2 * Real.pi := mul_one _
  · intro ht
    rw [hfrac, ht, sub_self, zero_div]

/-- C4 witness: the mean-anomaly formula instantiated at the sample
frame with peaks at times 1 and 3 and reference time 2. -/
theorem mean_anomaly_formula_witness :
    ∃ k frac,
      lastIdxLE (tPeaksOf sampleFrame sampleFind) 2 = some k ∧
      (∀ j, j < (tPeaksOf sampleFrame sampleFind).length →
        (tPeaksOf sampleFrame sampleFind).getD j 0 ≤ 2 → j ≤ k) ∧
      frac = (2 - (tPeaksOf sampleFrame sampleFind).getD k 0)
        / ((tPeaksOf sampleFrame sampleFind).getD (k + 1) 0
          - (tPeaksOf sampleFrame sampleFind).getD k 0) ∧
      measure_ecc sampleFrame sampleFind (TRef.scalar 2) noKwargs =
        .ok (EccOut.scalar
          ((eccRefsOf sampleFrame sampleFind (TRef.scalar 2)).getD 0 0) frac) ∧
      0 ≤ frac ∧ frac < 1 ∧
      0 ≤ 2 * Real.pi * (frac : ℝ) ∧ 2 * Real.pi * (frac : ℝ) < 2 * Real.pi ∧
      ((tPeaksOf sampleFrame sampleFind).getD k 0 = 2 → frac = 0) :=
  mean_anomaly_formula sampleFrame sampleFind noKwargs 2 rfl
    (by norm_num [sampleFind]) (by decide) (by norm_num [sampleFind]) (by decide)
    (by norm_num [tPeaksOf, sampleFrame, sampleFind, List.sorted_cons])
    (by norm_num [tPeaksOf, sampleFrame, sampleFind])
    (by norm_num [tPeaksOf, sampleFrame, sampleFind])

/-! Claim C5. -/

/-- C5 counterexample: the sequence `t_ref = [1, 0]` contains the entry
0, which lies before the first detected peak (time 1), so by the claim
`measure_ecc` should raise the explicit "reference time must be within
two peaks" error.  It does not: the bracketing guard checks only
`t_ref[0]` (= 1, at the first peak) and `t_ref[-1]` (= 0, below the
last peak), so it passes, and the loop then fails on the entry 0 with
an `IndexError` from `np.where(t_peaks <= 0)[0][-1]` on an empty index
array. -/
theorem seq_out_of_range_index_error_cex :
    measure_ecc sampleFrame sampleFind (TRef.seq [1, 0]) noKwargs =
      .error PyError.indexError := by
  rw [measure_ecc_stage sampleFrame sampleFind noKwargs (TRef.seq [1, 0]) rfl
    (by norm_num [sampleFind]) (by decide) (by norm_num [sampleFind])
    (by decide)]
  norm_num [tsOf, tPeaksOf, sampleFrame, sampleFind, mean_ano_at, lastIdxLE,
    List.range_succ, List.mapM, List.mapM.loop, ok_bind, error_bind]

/-- C5 amended: for a *scalar* reference time before the first detected
peak or at/after the last detected peak, `measure_ecc` raises the
explicit "reference time must be within two peaks" exception (not a
clamped or extrapolated value).  For sequences the guard inspects only
the first entry's lower bound and the last entry's upper bound, and a
sequence that passes those checks while containing another
out-of-range entry fails with an `IndexError` instead (see the
counterexample). -/
theorem scalar_out_of_bracket_raises (frame : Frame) (fe : Which → List ℕ)
    (kw : Kwargs) (t : ℚ) (hext : (mergeKwargs kw).ext = 0)
    (hmaxlen : 2 ≤ (fe Which.maxima).length)
    (hmaxb : ∀ i ∈ fe Which.maxima,
      i < frame.time.length ∧ i < frame.omega22.length)
    (hminlen : 2 ≤ (fe Which.minima).length)
    (hminb : ∀ i ∈ fe Which.minima,
      i < frame.time.length ∧ i < frame.omega22.length)
    (hsort : List.Sorted (· < ·) (tPeaksOf frame fe))
    (hout : t < (tPeaksOf frame fe).getD 0 0 ∨
      (tPeaksOf frame fe).getD ((tPeaksOf frame fe).length - 1) 0 ≤ t) :
    measure_ecc frame fe (TRef.scalar t) kw =
      .error (.exceptionMsg "...reference time must be within two peaks.") := by
  rw [measure_ecc_stage frame fe kw (TRef.scalar t) hext hmaxlen hmaxb
    hminlen hminb]
  have hts : tsOf (TRef.scalar t) = [t] := rfl
  rw [hts]
  simp only [List.head?_cons, List.getLast?_singleton]
  rw [if_neg]
  rintro ⟨⟨p, hpmem, hple⟩, ⟨q, hqmem, hqlt⟩⟩
  rcases hout with h | h
  · have := (mem_getD_of_sorted_bounds _ hsort p hpmem).1
    linarith
  · have := (mem_getD_of_sorted_bounds _ hsort q hqmem).2
    linarith

/-- C5 amended witness: a scalar reference time below the first peak of
the sample frame raises the explicit exception. -/
theorem scalar_out_of_bracket_raises_witness :
    measure_ecc sampleFrame sampleFind (TRef.scalar 0) noKwargs =
      .error (.exceptionMsg "...reference time must be within two peaks.") :=
  scalar_out_of_bracket_raises sampleFrame sampleFind noKwargs 0 rfl
    (by norm_num [sampleFind]) (by decide) (by norm_num [sampleFind])
    (by decide)
    (by norm_num [tPeaksOf, sampleFrame, sampleFind, List.sorted_cons])
    (by norm_num [tPeaksOf, sampleFrame, sampleFind])

/-! Claim C8. -/

/-- C8 counterexample: output shape does not always mirror input shape.
Calling `measure_ecc` with the one-element *sequence* `[1]` yields a
*scalar* result (the code unwraps every length-1 `t_ref`), not a
one-element sequence. -/
theorem singleton_seq_returns_scalar_cex :
    measure_ecc sampleFrame sampleFind (TRef.seq [1]) noKwargs =
      .ok (EccOut.scalar 1 0) := by
  rw [measure_ecc_stage sampleFrame sampleFind noKwargs (TRef.seq [1]) rfl
    (by norm_num [sampleFind]) (by decide) (by norm_num [sampleFind])
    (by decide)]
  norm_num [tsOf, tPeaksOf, eccRefsOf, eccCurve, sampleFrame, sampleFind,
    mean_ano_at, lastIdxLE, List.range_succ, List.mapM, List.mapM.loop,
    ok_bind, error_bind, interpLin, ratSqrtAbs, intSqrt, natSqrtBelow]

/-- C8 amended: the scalar call `measure_ecc(x)` and the
singleton-sequence call `measure_ecc([x])` run the identical
computation (both yield the same scalar result), and every successful
call on a sequence of length at least 2 returns a sequence pair whose
lengths equal the input length; but a singleton sequence is unwrapped
to a scalar output (see the counterexample), so shape mirroring holds
for scalars and for sequences of length at least 2 only. -/
theorem tref_shape_behaviour (frame : Frame) (fe : Which → List ℕ)
    (kw : Kwargs) (x : ℚ) (xs : List ℚ) (out : EccOut)
    (hout : measure_ecc frame fe (TRef.seq xs) kw = .ok out)
    (hlen : 2 ≤ xs.length) :
    measure_ecc frame fe (TRef.scalar x) kw =
      measure_ecc frame fe (TRef.seq [x]) kw ∧
    ∃ es ms, out = EccOut.seq es ms ∧ es.length = xs.length ∧
      ms.length = xs.length := by
  refine ⟨rfl, ?_⟩
  simp only [measure_ecc, tsOf] at hout
  cases hp : interp_extrema frame fe Which.maxima (mergeKwargs kw) with
  | error e => rw [hp] at hout; exact Except.noConfusion hout
  | ok v =>
    rw [hp] at hout
    cases v with
    | none => exact Except.noConfusion hout
    | some pr =>
      obtain ⟨pI, pIdx⟩ := pr
      have hout2 : (interp_extrema frame fe Which.minima (mergeKwargs kw) >>=
          fun troughsRes =>
            match troughsRes with
            | none =>
              Except.error (PyError.typeError "NoneType object is not subscriptable")
            | some (troughsInterp, _) =>
              ecc_vals frame pI troughsInterp >>= fun eccVals =>
              xs.mapM (fun tv =>
                (mkSpline frame.time eccVals (mergeKwargs kw)).eval tv) >>=
                fun eccRefs =>
              match xs.head?, xs.getLast? with
              | some t0, some tLast =>
                if (∃ p ∈ pIdx.map (fun i => frame.time.getD i 0), p ≤ t0) ∧
                    (∃ p ∈ pIdx.map (fun i => frame.time.getD i 0), tLast < p) then
                  xs.mapM (mean_ano_at
                    (pIdx.map (fun i => frame.time.getD i 0))) >>= fun meanAnos =>
                    if xs.length = 1 then
                      pure (EccOut.scalar (eccRefs.getD 0 0) (meanAnos.getD 0 0))
                    else
                      pure (EccOut.seq eccRefs meanAnos)
                else
                  Except.error
                    (PyError.exceptionMsg
                      "...reference time must be within two peaks.")
              | _, _ => Except.error PyError.indexError) = Except.ok out := hout
      clear hout
      cases hq : interp_extrema frame fe Which.minima (mergeKwargs kw) with
      | error e => rw [hq] at hout2; exact Except.noConfusion hout2
      | ok w =>
        rw [hq] at hout2
        cases w with
        | none => exact Except.noConfusion hout2
        | some qr =>
          obtain ⟨qI, qIdx⟩ := qr
          have hout3 : (ecc_vals frame pI qI >>= fun eccVals =>
              xs.mapM (fun tv =>
                (mkSpline frame.time eccVals (mergeKwargs kw)).eval tv) >>=
                fun eccRefs =>
              match xs.head?, xs.getLast? with
              | some t0, some tLast =>
                if (∃ p ∈ pIdx.map (fun i => frame.time.getD i 0), p ≤ t0) ∧
                    (∃ p ∈ pIdx.map (fun i => frame.time.getD i 0), tLast < p) then
                  xs.mapM (mean_ano_at
                    (pIdx.map (fun i => frame.time.getD i 0))) >>= fun meanAnos =>
                    if xs.length = 1 then
                      pure (EccOut.scalar (eccRefs.getD 0 0) (meanAnos.getD 0 0))
                    else
                      pure (EccOut.seq eccRefs meanAnos)
                else
                  Except.error
                    (PyError.exceptionMsg
                      "...reference time must be within two peaks.")
              | _, _ => Except.error PyError.indexError) = Except.ok out := hout2
          clear hout2
          cases hev : ecc_vals frame pI qI with
          | error e => rw [hev] at hout3; exact Except.noConfusion hout3
          | ok eccV =>
            rw [hev] at hout3
            have hout4 : (xs.mapM (fun tv =>
                (mkSpline frame.time eccV (mergeKwargs kw)).eval tv) >>=
                fun eccRefs =>
              match xs.head?, xs.getLast? with
              | some t0, some tLast =>
                if (∃ p ∈ pIdx.map (fun i => frame.time.getD i 0), p ≤ t0) ∧
                    (∃ p ∈ pIdx.map (fun i => frame.time.getD i 0), tLast < p) then
                  xs.mapM (mean_ano_at
                    (pIdx.map (fun i => frame.time.getD i 0))) >>= fun meanAnos =>
                    if xs.length = 1 then
                      pure (EccOut.scalar (eccRefs.getD 0 0) (meanAnos.getD 0 0))
                    else
                      pure (EccOut.seq eccRefs meanAnos)
                else
                  Except.error
                    (PyError.exceptionMsg
                      "...reference time must be within two peaks.")
              | _, _ => Except.error PyError.indexError) = Except.ok out := hout3
            clear hout3
            cases her : xs.mapM
                (fun tv => (mkSpline frame.time eccV (mergeKwargs kw)).eval tv) with
            | error e => rw [her] at hout4; exact Except.noConfusion hout4
            | ok eccRefs =>
              rw [her] at hout4
              have hout5 : (match xs.head?, xs.getLast? with
                | some t0, some tLast =>
                  if (∃ p ∈ pIdx.map (fun i => frame.time.getD i 0), p ≤ t0) ∧
                      (∃ p ∈ pIdx.map (fun i => frame.time.getD i 0), tLast < p) then
                    xs.mapM (mean_ano_at
                      (pIdx.map (fun i => frame.time.getD i 0))) >>= fun meanAnos =>
                      if xs.length = 1 then
                        pure (EccOut.scalar (eccRefs.getD 0 0) (meanAnos.getD 0 0))
                      else
                        pure (EccOut.seq eccRefs meanAnos)
                  else
                    Except.error
                      (PyError.exceptionMsg
                        "...reference time must be within two peaks.")
                | _, _ => Except.error PyError.indexError) = Except.ok out := hout4
              clear hout4
              cases xs with
              | nil => simp at hlen
              | cons a rest =>
                cases hL : (a :: rest).getLast? with
                | none => simp [List.getLast?_eq_none_iff] at hL
                | some tLast =>
                  rw [List.head?_cons, hL] at hout5
                  have hout6 : (if (∃ p ∈ pIdx.map
                        (fun i => frame.time.getD i 0), p ≤ a) ∧
                      (∃ p ∈ pIdx.map (fun i => frame.time.getD i 0), tLast < p) then
                      (a :: rest).mapM (mean_ano_at
                        (pIdx.map (fun i => frame.time.getD i 0))) >>= fun meanAnos =>
                        if (a :: rest).length = 1 then
                          pure (EccOut.scalar (eccRefs.getD 0 0) (meanAnos.getD 0 0))
                        else
                          pure (EccOut.seq eccRefs meanAnos)
                    else
                      Except.error
                        (PyError.exceptionMsg
                          "...reference time must be within two peaks."))
                      = Except.ok out := hout5
                  clear hout5
                  by_cases hg : (∃ p ∈ pIdx.map (fun i => frame.time.getD i 0),
                        p ≤ a) ∧
                      (∃ p ∈ pIdx.map (fun i => frame.time.getD i 0), tLast < p)
                  · rw [if_pos hg] at hout6
                    cases hm : (a :: rest).mapM
                        (mean_ano_at (pIdx.map (fun i => frame.time.getD i 0))) with
                    | error e => rw [hm] at hout6; exact Except.noConfusion hout6
                    | ok ms =>
                      rw [hm] at hout6
                      have hout7 : (if (a :: rest).length = 1 then
                          Except.ok (EccOut.scalar (eccRefs.getD 0 0) (ms.getD 0 0))
                        else
                          Except.ok (EccOut.seq eccRefs ms)) = Except.ok out := hout6
                      clear hout6
                      rw [if_neg (by
                        simp only [List.length_cons] at hlen ⊢
                        omega)] at hout7
                      refine ⟨eccRefs, ms, ?_, ?_, ?_⟩
                      · injection hout7 with h
                        exact h.symm
                      · exact mapM_length _ _ _ her
                      · exact mapM_length _ _ _ hm
                  · rw [if_neg hg] at hout6
                    exact Except.noConfusion hout6

/-- C8 amended witness: scalar 1 versus `[1]` coincide on the sample
frame, and the length-2 input `[1, 2]` yields the sequence output
`([1, 1], [0, 1/2])` of matching length. -/
theorem tref_shape_behaviour_witness :
    (measure_ecc sampleFrame sampleFind (TRef.scalar 1) noKwargs =
      measure_ecc sampleFrame sampleFind (TRef.seq [1]) noKwargs) ∧
    ∃ es ms, EccOut.seq [1, 1] [0, 1/2] = EccOut.seq es ms ∧
      es.length = ([(1 : ℚ), 2]).length ∧ ms.length = ([(1 : ℚ), 2]).length :=
  tref_shape_behaviour sampleFrame sampleFind noKwargs 1 [1, 2]
    (EccOut.seq [1, 1] [0, 1/2])
    (by
      rw [measure_ecc_stage sampleFrame sampleFind noKwargs (TRef.seq [1, 2])
        rfl (by norm_num [sampleFind]) (by decide) (by norm_num [sampleFind])
        (by decide)]
      norm_num [tsOf, tPeaksOf, eccRefsOf, eccCurve, sampleFrame, sampleFind,
        mean_ano_at, lastIdxLE, List.range_succ, List.mapM, List.mapM.loop,
        ok_bind, error_bind, interpLin, ratSqrtAbs, intSqrt, natSqrtBelow])
    (by norm_num)

/-! Claim C6. -/

theorem quadFit5_ragged (ti : ℚ) (xs ys : List ℚ) (h : xs.length ≠ 5) :
    quadFit5 ti xs ys =
      .error (.valueError "setting an array element with a sequence") := by
  match xs with
  | [] => rfl
  | [_] => rfl
  | [_, _] => rfl
  | [_, _, _] => rfl
  | [_, _, _, _] => rfl
  | [_, _, _, _, _] => simp at h
  | _ :: _ :: _ :: _ :: _ :: _ :: _ => rfl

/-- C6 amended: estimator construction fails for every input whose time
array has fewer than 5 samples (for any amplitude and phase data); but
the constructor performs no monotonicity check at all, so a time array
that is not strictly increasing is accepted without error (see the
counterexample). -/
theorem init_fails_short_time (t amp phase : List ℚ) (h : t.length < 5) :
    ∃ e, eccDefinitionInit t amp phase = .error e := by
  have hgp : ∃ e, get_peak_via_quadratic_fit t amp = .error e := by
    cases ha : npArgmax amp with
    | none =>
      refine ⟨.valueError "attempt to get argmax of an empty sequence", ?_⟩
      unfold get_peak_via_quadratic_fit
      rw [ha]
    | some i0 =>
      have hidx : max 2 (min (t.length - 3) i0) = 2 := by
        have := Nat.min_le_left (t.length - 3) i0
        omega
      by_cases hlen2 : 2 < t.length
      · refine ⟨.valueError "setting an array element with a sequence", ?_⟩
        unfold get_peak_via_quadratic_fit
        rw [ha]
        show (let index := max 2 (min (t.length - 3) i0);
          if hi : index < t.length then
            quadFit5 (t.get ⟨index, hi⟩)
              (((t.drop (index - 2)).take 5).map (fun x => x - t.get ⟨index, hi⟩))
              ((amp.drop (index - 2)).take 5)
          else Except.error PyError.indexError) = _
        rw [hidx]
        show (if hi : (2 : ℕ) < t.length then
            quadFit5 (t.get ⟨2, hi⟩)
              (((t.drop 0).take 5).map (fun x => x - t.get ⟨2, hi⟩))
              ((amp.drop 0).take 5)
          else Except.error PyError.indexError) = _
        rw [dif_pos hlen2]
        rw [quadFit5_ragged _ _ _ (by
          simp only [List.length_map, List.length_take, List.length_drop]
          omega)]
      · refine ⟨.indexError, ?_⟩
        unfold get_peak_via_quadratic_fit
        rw [ha]
        show (let index := max 2 (min (t.length - 3) i0);
          if hi : index < t.length then
            quadFit5 (t.get ⟨index, hi⟩)
              (((t.drop (index - 2)).take 5).map (fun x => x - t.get ⟨index, hi⟩))
              ((amp.drop (index - 2)).take 5)
          else Except.error PyError.indexError) = _
        rw [hidx]
        show (if hi : (2 : ℕ) < t.length then
            quadFit5 (t.get ⟨2, hi⟩)
              (((t.drop 0).take 5).map (fun x => x - t.get ⟨2, hi⟩))
              ((amp.drop 0).take 5)
          else Except.error PyError.indexError) = _
        rw [dif_neg hlen2]
  obtain ⟨e, hgp⟩ := hgp
  refine ⟨e, ?_⟩
  unfold eccDefinitionInit
  rw [hgp]
  rfl

/-- C6 amended witness: a 3-sample input fails at construction. -/
theorem init_fails_short_time_witness :
    ∃ e, eccDefinitionInit [0, 1, 2] [1, 2, 1] [0, 0, 0] = .error e :=
  init_fails_short_time [0, 1, 2] [1, 2, 1] [0, 0, 0] (by norm_num)

/-- C6 counterexample: a strictly *decreasing* 5-sample time array is
not rejected: construction runs to completion (the quadratic peak fit
returns `t_peak = 2` and the frame is built), even though the claim
requires a fatal error for any non-strictly-increasing time array.
The amplitude here is the modulus of real positive strain samples and
the phase is identically zero, so this frame is exactly what
`__init__` computes on a genuine input dictionary. -/
theorem init_accepts_decreasing_time_cex :
    (¬ List.Sorted (· < ·) ([4, 3, 2, 1, 0] : List ℚ)) ∧
    eccDefinitionInit [4, 3, 2, 1, 0] [1, 2, 5, 2, 1] [0, 0, 0, 0, 0] =
      .ok { time := [2, 1, 0, -1, -2], amp22 := [1, 2, 5, 2, 1],
            phase22 := [0, 0, 0, 0, 0], omega22 := [0, 0, 0, 0, 0] } := by
  constructor
  · intro hsorted
    have h43 := List.rel_of_sorted_cons hsorted 3 (by norm_num)
    norm_num at h43
  · norm_num [eccDefinitionInit, get_peak_via_quadratic_fit, npArgmax,
      argmaxGo, quadFit5, gramDet, fitC0, fitC1, fitC2, npGradient, gradAt,
      List.range_succ, List.get, ok_bind, error_bind]

/-! Claim C7. -/

theorem gramDet_pos (x1 x2 x3 x4 x5 : ℚ) (h12 : x1 < x2) (h23 : x2 < x3)
    (h34 : x3 < x4) (h45 : x4 < x5) : 0 < gramDet x1 x2 x3 x4 x5 := by
  have hiden : gramDet x1 x2 x3 x4 x5 =
      ((x2-x1)*(x3-x1)*(x3-x2))^2 + ((x2-x1)*(x4-x1)*(x4-x2))^2
        + ((x2-x1)*(x5-x1)*(x5-x2))^2 + ((x3-x1)*(x4-x1)*(x4-x3))^2
        + ((x3-x1)*(x5-x1)*(x5-x3))^2 + ((x4-x1)*(x5-x1)*(x5-x4))^2
        + ((x3-x2)*(x4-x2)*(x4-x3))^2 + ((x3-x2)*(x5-x2)*(x5-x3))^2
        + ((x4-x2)*(x5-x2)*(x5-x4))^2 + ((x4-x3)*(x5-x3)*(x5-x4))^2 := by
    simp only [gramDet]
    ring
  rw [hiden]
  have h1 : 0 < ((x2-x1)*(x3-x1)*(x3-x2))^2 :=
    pow_pos (mul_pos (mul_pos (sub_pos.mpr h12)
      (sub_pos.mpr (h12.trans h23))) (sub_pos.mpr h23)) 2
  have n2 := sq_nonneg ((x2-x1)*(x4-x1)*(x4-x2))
  have n3 := sq_nonneg ((x2-x1)*(x5-x1)*(x5-x2))
  have n4 := sq_nonneg ((x3-x1)*(x4-x1)*(x4-x3))
  have n5 := sq_nonneg ((x3-x1)*(x5-x1)*(x5-x3))
  have n6 := sq_nonneg ((x4-x1)*(x5-x1)*(x5-x4))
  have n7 := sq_nonneg ((x3-x2)*(x4-x2)*(x4-x3))
  have n8 := sq_nonneg ((x3-x2)*(x5-x2)*(x5-x3))
  have n9 := sq_nonneg ((x4-x2)*(x5-x2)*(x5-x4))
  have n10 := sq_nonneg ((x4-x3)*(x5-x3)*(x5-x4))
  linarith

theorem fitC0_exact (c0 c1 c2 x1 x2 x3 x4 x5 : ℚ)
    (hdet : gramDet x1 x2 x3 x4 x5 ≠ 0) :
    fitC0 x1 x2 x3 x4 x5 (c0 + c1*x1 + c2*x1^2) (c0 + c1*x2 + c2*x2^2)
      (c0 + c1*x3 + c2*x3^2) (c0 + c1*x4 + c2*x4^2)
      (c0 + c1*x5 + c2*x5^2) = c0 := by
  simp only [fitC0]
  rw [div_eq_iff hdet]
  simp only [gramDet]
  ring

theorem fitC1_exact (c0 c1 c2 x1 x2 x3 x4 x5 : ℚ)
    (hdet : gramDet x1 x2 x3 x4 x5 ≠ 0) :
    fitC1 x1 x2 x3 x4 x5 (c0 + c1*x1 + c2*x1^2) (c0 + c1*x2 + c2*x2^2)
      (c0 + c1*x3 + c2*x3^2) (c0 + c1*x4 + c2*x4^2)
      (c0 + c1*x5 + c2*x5^2) = c1 := by
  simp only [fitC1]
  rw [div_eq_iff hdet]
  simp only [gramDet]
  ring

theorem fitC2_exact (c0 c1 c2 x1 x2 x3 x4 x5 : ℚ)
    (hdet : gramDet x1 x2 x3 x4 x5 ≠ 0) :
    fitC2 x1 x2 x3 x4 x5 (c0 + c1*x1 + c2*x1^2) (c0 + c1*x2 + c2*x2^2)
      (c0 + c1*x3 + c2*x3^2) (c0 + c1*x4 + c2*x4^2)
      (c0 + c1*x5 + c2*x5^2) = c2 := by
  simp only [fitC2]
  rw [div_eq_iff hdet]
  simp only [gramDet]
  ring

theorem quadFit5_exact (ti c0 c1 c2 x1 x2 x3 x4 x5 y1 y2 y3 y4 y5 : ℚ)
    (h12 : x1 < x2) (h23 : x2 < x3) (h34 : x3 < x4) (h45 : x4 < x5)
    (hc2 : c2 ≠ 0)
    (hy1 : y1 = c0 + c1*x1 + c2*x1^2) (hy2 : y2 = c0 + c1*x2 + c2*x2^2)
    (hy3 : y3 = c0 + c1*x3 + c2*x3^2) (hy4 : y4 = c0 + c1*x4 + c2*x4^2)
    (hy5 : y5 = c0 + c1*x5 + c2*x5^2) :
    quadFit5 ti [x1, x2, x3, x4, x5] [y1, y2, y3, y4, y5] =
      .ok (ti - c1/(2*c2), c0 - c1^2/4/c2) := by
  subst hy1 hy2 hy3 hy4 hy5
  have hdet := ne_of_gt (gramDet_pos x1 x2 x3 x4 x5 h12 h23 h34 h45)
  simp only [quadFit5]
  rw [if_neg hdet, fitC0_exact c0 c1 c2 x1 x2 x3 x4 x5 hdet,
    fitC1_exact c0 c1 c2 x1 x2 x3 x4 x5 hdet,
    fitC2_exact c0 c1 c2 x1 x2 x3 x4 x5 hdet]

theorem take5_drop (l : List ℚ) (m : ℕ) (h : m + 4 < l.length) :
    (l.drop m).take 5 = [l.getD m 0, l.getD (m+1) 0, l.getD (m+2) 0,
      l.getD (m+3) 0, l.getD (m+4) 0] := by
  rw [List.drop_eq_getElem_cons (show m < l.length by omega),
    List.take_succ_cons,
    List.drop_eq_getElem_cons (show m+1 < l.length by omega),
    List.take_succ_cons,
    List.drop_eq_getElem_cons (show m+2 < l.length by omega),
    List.take_succ_cons,
    List.drop_eq_getElem_cons (show m+3 < l.length by omega),
    List.take_succ_cons,
    List.drop_eq_getElem_cons (show m+4 < l.length by omega),
    List.take_succ_cons, List.take_zero,
    List.getD_eq_getElem l 0 (show m < l.length by omega),
    List.getD_eq_getElem l 0 (show m+1 < l.length by omega),
    List.getD_eq_getElem l 0 (show m+2 < l.length by omega),
    List.getD_eq_getElem l 0 (show m+3 < l.length by omega),
    List.getD_eq_getElem l 0 (show m+4 < l.length by omega)]

theorem npArgmax_of_ne_nil (xs : List ℚ) (h : xs ≠ []) :
    ∃ i, npArgmax xs = some i := by
  cases xs with
  | nil => exact absurd rfl h
  | cons x rest => exact ⟨_, rfl⟩

/-- C7: on an exactly sampled parabola `f(t) = a - b (t - t0)^2` with
`b ≠ 0` over at least 5 strictly increasing times,
`get_peak_via_quadratic_fit` recovers the vertex exactly, returning
`t_peak = t0` and `f_peak = a` (in the exact rational arithmetic of
this embedding; the implementation matches to floating-point
tolerance). -/
theorem quadratic_fit_exact_on_parabola (t : List ℚ) (a b t0 : ℚ)
    (hsort : List.Sorted (· < ·) t) (hlen : 5 ≤ t.length) (hb : b ≠ 0) :
    get_peak_via_quadratic_fit t (t.map (fun x => a - b*(x - t0)^2)) =
      .ok (t0, a) := by
  obtain ⟨i0, hi0⟩ := npArgmax_of_ne_nil (t.map (fun x => a - b*(x - t0)^2))
    (List.length_pos.mp (by rw [List.length_map]; omega))
  unfold get_peak_via_quadratic_fit
  rw [hi0]
  show (let index := max 2 (min (t.length - 3) i0);
    if hi : index < t.length then
      quadFit5 (t.get ⟨index, hi⟩)
        (((t.drop (index - 2)).take 5).map (fun x => x - t.get ⟨index, hi⟩))
        (((t.map (fun x => a - b*(x - t0)^2)).drop (index - 2)).take 5)
    else Except.error PyError.indexError) = _
  generalize hidx : max 2 (min (t.length - 3) i0) = idx
  have hge2 : 2 ≤ idx := by
    have := le_max_left 2 (min (t.length - 3) i0)
    omega
  have hle : idx ≤ t.length - 3 := by
    have h1 := Nat.min_le_left (t.length - 3) i0
    have h2 : 2 ≤ t.length - 3 := by omega
    omega
  have hlt : idx < t.length := by omega
  have hwin : idx - 2 + 4 < t.length := by omega
  show (if hi : idx < t.length then
      quadFit5 (t.get ⟨idx, hi⟩)
        (((t.drop (idx - 2)).take 5).map (fun x => x - t.get ⟨idx, hi⟩))
        (((t.map (fun x => a - b*(x - t0)^2)).drop (idx - 2)).take 5)
    else Except.error PyError.indexError) = _
  rw [dif_pos hlt, ← List.map_drop, ← List.map_take,
    take5_drop t (idx - 2) hwin,
    ← List.getD_eq_get t 0 hlt]
  simp only [List.map_cons, List.map_nil]
  have hs1 := sorted_getD_lt t hsort (idx - 2) (idx - 2 + 1) (by omega) (by omega)
  have hs2 := sorted_getD_lt t hsort (idx - 2 + 1) (idx - 2 + 2) (by omega)
    (by omega)
  have hs3 := sorted_getD_lt t hsort (idx - 2 + 2) (idx - 2 + 3) (by omega)
    (by omega)
  have hs4 := sorted_getD_lt t hsort (idx - 2 + 3) (idx - 2 + 4) (by omega)
    (by omega)
  rw [quadFit5_exact (t.getD idx 0) (a - b*(t.getD idx 0 - t0)^2)
      (-(2*b*(t.getD idx 0 - t0))) (-b)
      (t.getD (idx - 2) 0 - t.getD idx 0)
      (t.getD (idx - 2 + 1) 0 - t.getD idx 0)
      (t.getD (idx - 2 + 2) 0 - t.getD idx 0)
      (t.getD (idx - 2 + 3) 0 - t.getD idx 0)
      (t.getD (idx - 2 + 4) 0 - t.getD idx 0)
      (a - b*(t.getD (idx - 2) 0 - t0)^2)
      (a - b*(t.getD (idx - 2 + 1) 0 - t0)^2)
      (a - b*(t.getD (idx - 2 + 2) 0 - t0)^2)
      (a - b*(t.getD (idx - 2 + 3) 0 - t0)^2)
      (a - b*(t.getD (idx - 2 + 4) 0 - t0)^2)
      (sub_lt_sub_right hs1 _) (sub_lt_sub_right hs2 _)
      (sub_lt_sub_right hs3 _) (sub_lt_sub_right hs4 _)
      (neg_ne_zero.mpr hb)
      (by ring) (by ring) (by ring) (by ring) (by ring)]
  have hfst : t.getD idx 0 - (-(2*b*(t.getD idx 0 - t0)))/(2*(-b)) = t0 := by
    field_simp
  have hsnd : (a - b*(t.getD idx 0 - t0)^2)
      - (-(2*b*(t.getD idx 0 - t0)))^2/4/(-b) = a := by
    field_simp
    ring
  rw [hfst, hsnd]

/-- C7 witness: the parabola `7 - (x - 2)^2` sampled at
`[0, 1, 2, 3, 4]` yields exactly `(t_peak, f_peak) = (2, 7)`. -/
theorem quadratic_fit_exact_on_parabola_witness :
    get_peak_via_quadratic_fit [0, 1, 2, 3, 4]
      (([0, 1, 2, 3, 4] : List ℚ).map (fun x => 7 - 1*(x - 2)^2)) =
      .ok (2, 7) :=
  quadratic_fit_exact_on_parabola [0, 1, 2, 3, 4] 7 1 2
    (by norm_num [List.sorted_cons]) (by norm_num) (by norm_num)

end GwEcc
